import Mathlib

/- A verification development for the bob build tool (src/bob/core.py and
   src/bob/utils.py): a shallow embedding of its staleness oracle
   (Target.should_build), recipe handling (Recipe.__init__, Recipe.run,
   Recipe.clone), dependency graph construction (build_dependency_graph),
   requested-target resolution and the queue-driven worker of build(),
   together with theorems checking the specification's claims against the
   embedded code. -/

namespace Bob

/- Filesystem paths are modelled as strings, modification timestamps as
   integers (only their ordering is relevant to the code). -/
abbrev FPath := String
abbrev Timestamp := Int

/- The relevant filesystem state: st_mtime per path (none means stat()
   raises), and the value returned by Path.is_dir(). -/
structure FS where
  mtime : FPath → Option Timestamp
  isDir : FPath → Bool

/- Path.exists(): stat succeeds. -/
def FS.pexists (fs : FS) (p : FPath) : Bool :=
  (fs.mtime p).isSome

/- utils.get_timestamps (utils.py 154-166): stat each file, silently
   skipping the files whose stat raises. -/
def get_timestamps (fs : FS) (files : List FPath) : List Timestamp :=
  files.filterMap fs.mtime

/- Target.__init__ (core.py 202-243) enforces exactly two name shapes:
   a phony target's name is [s] for a single str s, and a non-phony
   target's name is a list of Paths.  TName captures these two
   constructor-enforced shapes; the phony flag is recovered from the shape
   because the constructor couples them (phony iff the str shape). -/
inductive TName where
  | phonyN (s : String)
  | pathsN (ps : List FPath)
deriving DecidableEq

def TName.phonyFlag : TName → Bool
  | .phonyN _ => true
  | .pathsN _ => false

/- The output paths of a name.  The phonyN case is never consulted by the
   embedded code below: should_build returns early on the phony flag before
   reading name files (matching the source, where reaching get_timestamps
   with a str name would be impossible for a constructed Target). -/
def TName.files : TName → List FPath
  | .phonyN _ => []
  | .pathsN ps => ps

/- A dependency Target as seen by should_build: only its phony flag and its
   name are read there. -/
structure DepTarget where
  name : TName
deriving DecidableEq

def DepTarget.phony (d : DepTarget) : Bool := d.name.phonyFlag

/- A resolved dependency entry (core.py Target.dependencies after
   resolve_dependencies): another Target, or a bare Path reference. -/
inductive Dep where
  | targetD (d : DepTarget)
  | pathD (p : FPath)
deriving DecidableEq

structure Target where
  name : TName
  dependencies : List Dep
deriving DecidableEq

def Target.phony (t : Target) : Bool := t.name.phonyFlag

/- The dependency-file collection loop of Target.should_build
   (core.py 309-319): returns none when a phony Target dependency is met
   (the source returns True there), otherwise the dependency files in
   source order — a Target dependency contributes its name paths
   (dep_files.extend), a Path dependency itself (dep_files.append). -/
def collectDepFiles : List Dep → Option (List FPath)
  | [] => some []
  | .targetD d :: rest =>
    if d.phony then none
    else (collectDepFiles rest).map (fun fl => d.name.files ++ fl)
  | .pathD p :: rest => (collectDepFiles rest).map (fun fl => p :: fl)

/- Python min() over a nonempty list (callers guard emptiness). -/
def listMin : List Timestamp → Timestamp
  | [] => 0
  | [x] => x
  | x :: y :: xs => min x (listMin (y :: xs))

/- Python max() over a nonempty list (callers guard emptiness). -/
def listMax : List Timestamp → Timestamp
  | [] => 0
  | [x] => x
  | x :: y :: xs => max x (listMax (y :: xs))

/- The directory early-exit test of should_build (core.py 297-302):
   len(name) == 1 and name[0] is a Path (always true for the pathsN shape)
   and name[0].is_dir() and name[0].exists(). -/
def singleExistingDir (fs : FS) : List FPath → Bool
  | [p] => fs.isDir p && fs.pexists p
  | _ => false

/- Target.should_build (core.py 282-325). -/
def should_build (fs : FS) (t : Target) : Bool :=
  match t.name with
  | .phonyN _ => true
  | .pathsN ps =>
    if singleExistingDir fs ps then false
    else
      let timestamps := get_timestamps fs ps
      if timestamps.isEmpty then true
      else
        match collectDepFiles t.dependencies with
        | none => true
        | some depFiles =>
          let depTs := get_timestamps fs depFiles
          if depTs.isEmpty then false
          else decide (listMin timestamps ≤ listMax depTs)

/- Spec-side reading of the staleness comparison in claim C3: "the latest
   modification timestamp across the target's own output paths is not
   strictly newer than the latest across its dependencies' files".  The
   source instead compares min(timestamps), the EARLIEST own timestamp. -/
def specsideLatestNotNewer (fs : FS) (ownFiles depFiles : List FPath) : Bool :=
  decide (listMax (get_timestamps fs ownFiles) ≤ listMax (get_timestamps fs depFiles))

/- Concrete instances for claim C3: two outputs with mtimes 1 and 10, one
   dependency file with mtime 5. -/
def fsC3 : FS :=
  ⟨fun p => if p = "a" then some 1 else if p = "b" then some 10
            else if p = "c" then some 5 else none,
   fun _ => false⟩

def tC3 : Target := ⟨TName.pathsN ["a", "b"], [Dep.pathD "c"]⟩

/- Concrete instances for claim C4: a target whose single name path is an
   existing directory, with a phony Target dependency. -/
def fsC4 : FS :=
  ⟨fun p => if p = "d" then some 3 else none, fun p => p = "d"⟩

def tC4 : Target := ⟨TName.pathsN ["d"], [Dep.targetD ⟨TName.phonyN "ph"⟩]⟩

/- Concrete instances for claim C4's witness: two output paths (so the
   directory early-exit cannot apply), a phony dependency. -/
def fsW4 : FS := ⟨fun _ => none, fun _ => false⟩

def tW4 : Target := ⟨TName.pathsN ["x", "y"], [Dep.targetD ⟨TName.phonyN "p"⟩]⟩

/- ------------------------- Recipe (core.py 20-178) ------------------------- -/

inductive RecipeType where
  | CallableRecipe
  | ListRecipe
  | RawRecipe
  | DefaultRecipe
deriving DecidableEq

/- The argument accepted by Recipe.__init__: a callable (identified
   abstractly by a number), a list (its elements already stringified, as
   map(str, input) does), or a str/Path (both stringify into one value and
   take the same branch in the source). -/
inductive RecipeInput where
  | callableI (f : Nat)
  | listI (args : List String)
  | strOrPathI (s : String)
deriving DecidableEq

/- The internal self.input after construction: a callable, a list of
   strings, or (raw recipes only) a shell string. -/
inductive StoredInput where
  | callableS (f : Nat)
  | listS (args : List String)
  | rawS (s : String)
deriving DecidableEq

structure Recipe where
  raw : Bool
  rtype : RecipeType
  input : StoredInput
  cwd : FPath
deriving DecidableEq

/- Recipe.__init__ (core.py 42-68).  currentDir models Path.cwd() at
   construction time, used when no cwd argument is given. -/
def Recipe.init (input : RecipeInput) (raw : Bool) (cwdArg : Option FPath)
    (currentDir : FPath) : Except String Recipe :=
  if raw then
    match input with
    | .strOrPathI s =>
      .ok ⟨true, RecipeType.RawRecipe, StoredInput.rawS s, cwdArg.getD currentDir⟩
    | _ => .error "Only a str input can be raw."
  else
    match input with
    | .callableI f =>
      .ok ⟨false, RecipeType.CallableRecipe, StoredInput.callableS f, cwdArg.getD currentDir⟩
    | .listI args =>
      .ok ⟨false, RecipeType.ListRecipe, StoredInput.listS args, cwdArg.getD currentDir⟩
    | .strOrPathI s =>
      .ok ⟨false, RecipeType.DefaultRecipe, StoredInput.listS [s], cwdArg.getD currentDir⟩

/- deepcopy(self.input) handed back to the constructor: in the embedding
   (immutable values) the payload is passed through unchanged. -/
def storedToInput : StoredInput → RecipeInput
  | .callableS f => .callableI f
  | .listS args => .listI args
  | .rawS s => .strOrPathI s

/- Recipe.clone (core.py 175-178): Recipe(deepcopy(self.input),
   raw=self.raw) — no cwd argument, so __init__ falls back to Path.cwd()
   at clone time (cloneDir). -/
def Recipe.clone (r : Recipe) (cloneDir : FPath) : Except String Recipe :=
  Recipe.init (storedToInput r.input) r.raw none cloneDir

/- Recipe.run for a CallableRecipe (core.py 93-103).  The callable is
   modelled by its behaviour act : FPath → Bool × FPath — started with the
   process in a given working directory, it reports whether it raised and
   the directory it leaves the process in (a callable may itself chdir).
   The result is (exception propagated out of run, final working
   directory).  The source has no try/finally: os.chdir(current) runs only
   if the action returned normally. -/
def runCallable (rcwd : FPath) (act : FPath → Bool × FPath) (cwd0 : FPath) :
    Bool × FPath :=
  if cwd0 ≠ rcwd then
    let res := act rcwd
    if res.1 then (true, res.2)
    else (false, cwd0)
  else
    let res := act cwd0
    (res.1, res.2)

/- --------------- build_dependency_graph (core.py 328-374) --------------- -/

/- Per-target resolved dependencies: a Target (by node id — Python Targets
   compare and hash by object identity) or an unmatched Path reference.
   resolve_dependencies is modelled as already applied: its registry
   matching only determines which entries are Targets. -/
abbrev GDeps := Nat → List (Sum Nat FPath)

/- The cyclic-dependency RuntimeError: chain is the list of targets printed
   in the message (built by iterating the Python set `stack`, whose
   iteration order is unspecified — the enum parameter below), visiting is
   the ghost visiting-order stack at the moment of detection, reentered the
   re-visited target appended at the end of the message. -/
inductive GBErr where
  | cyc (chain : List Nat) (visiting : List Nat) (reentered : Nat)
  | fuelOut
deriving DecidableEq

structure GBSt where
  visited : List Nat
  stackL : List Nat
  edges : List (Nat × Nat)
  indeg : List (Nat × Nat)
deriving DecidableEq

/- in_degree.setdefault(t, 0) on the assoc-list model. -/
def setdefault (l : List (Nat × Nat)) (k : Nat) : List (Nat × Nat) :=
  if l.any (fun kv => kv.1 == k) then l else l ++ [(k, 0)]

/- in_degree[t] += 1 (t is always present: setdefault ran at first visit). -/
def bump (l : List (Nat × Nat)) (k : Nat) : List (Nat × Nat) :=
  l.map (fun kv => if kv.1 == k then (kv.1, kv.2 + 1) else kv)

/- The recursion of walk() flattened into one fuel-indexed function so that
   it is structurally recursive: visit t performs the stack/visited checks,
   then processes the dependency list (deps t rest), then pops t off the
   stack.  enum is the set-iteration oracle used to print the cycle chain:
   any function producing some enumeration of the stack set. -/
inductive GTask where
  | visit (t : Nat)
  | deps (t : Nat) (rest : List (Sum Nat FPath))

def walkF (g : GDeps) (enum : List Nat → List Nat) :
    Nat → GTask → GBSt → Except GBErr GBSt
  | 0, _, _ => .error .fuelOut
  | _ + 1, .deps _ [], st => .ok st
  | fuel + 1, .visit t, st =>
    if st.stackL.contains t then .error (.cyc (enum st.stackL) st.stackL t)
    else if st.visited.contains t then .ok st
    else
      match walkF g enum fuel (.deps t (g t))
          { st with visited := st.visited ++ [t], stackL := st.stackL ++ [t],
                    indeg := setdefault st.indeg t } with
      | .error e => .error e
      | .ok st2 => .ok { st2 with stackL := st2.stackL.erase t }
  | fuel + 1, .deps t (Sum.inl d :: rest), st =>
    match walkF g enum fuel (.visit d)
        { st with edges := st.edges ++ [(d, t)], indeg := bump st.indeg t } with
    | .error e => .error e
    | .ok st2 => walkF g enum fuel (.deps t rest) st2
  | fuel + 1, .deps t (Sum.inr _ :: rest), st => walkF g enum fuel (.deps t rest) st

def gbInit : GBSt := ⟨[], [], [], []⟩

/- build_dependency_graph: walk every requested root in order, propagating
   the first error. -/
def build_dependency_graph (g : GDeps) (enum : List Nat → List Nat) (fuel : Nat) :
    List Nat → GBSt → Except GBErr GBSt
  | [], st => .ok st
  | t :: ts, st =>
    match walkF g enum fuel (.visit t) st with
    | .error e => .error e
    | .ok st2 => build_dependency_graph g enum fuel ts st2

/- A valid set-iteration oracle enumerates exactly the elements of the
   stack, in some order. -/
def ValidEnum (enum : List Nat → List Nat) : Prop :=
  ∀ l, (enum l).Perm l

/- The two-node cycle used for claim C5: 0 depends on 1 and 1 on 0. -/
def g5 : GDeps := fun n =>
  if n = 0 then [Sum.inl 1] else if n = 1 then [Sum.inl 0] else []

/- ------------- requested-target resolution (core.py 484-503) ------------- -/

/- An element of the mutated `targets` list: still a requested name string,
   or replaced by a registry Target (identified by registry index). -/
inductive RItem where
  | name (s : String)
  | resolved (i : Nat)
deriving DecidableEq

/- The registry as seen by this loop: each target contributes
   map(str, treg.name), its list of name strings. -/
def findTargetIdx (registry : List (List String)) (s : String) : Option Nat :=
  registry.findIdx? (fun names => names.contains s)

inductive PyExn where
  | indexError
  | valueError
deriving DecidableEq

structure ResSt where
  targets : List RItem
  warns : List String
deriving DecidableEq

/- list.remove(x): drop the first element equal to x, ValueError if none. -/
def removeFirst (l : List RItem) (x : RItem) : Option (List RItem) :=
  match l with
  | [] => none
  | y :: ys => if y = x then some ys else (removeFirst ys x).map (fun zs => y :: zs)

/- The for idx, targ in enumerate(targets_copy) loop (core.py 486-497):
   on the first registry match, targets[idx] = treg and the OUTER loop
   breaks (the trailing `break` at line 497); on no match, the name is
   warned and removed from `targets` and the loop continues.  The Bool in
   the result records whether the loop broke on a match. -/
def resolveLoop (registry : List (List String)) :
    List (Nat × String) → ResSt → Except PyExn (ResSt × Bool)
  | [], st => .ok (st, false)
  | (idx, targ) :: rest, st =>
    match findTargetIdx registry targ with
    | some i =>
      if idx < st.targets.length then
        .ok ({ st with targets := st.targets.set idx (RItem.resolved i) }, true)
      else .error .indexError
    | none =>
      match removeFirst st.targets (RItem.name targ) with
      | none => .error .valueError
      | some ts =>
        resolveLoop registry rest { targets := ts, warns := st.warns ++ [targ] }

/- The outcome of build()'s target selection, up to the point where the
   dependency graph would be built (core.py 482-505): failEarly models the
   `return False` at line 503 (no graph is built, nothing scheduled),
   proceed carries the list handed to build_dependency_graph. -/
inductive ResOutcome where
  | failEarly (warns : List String)
  | proceed (targets : List RItem) (warns : List String)
  | raised (e : PyExn)
deriving DecidableEq

def buildSelect (registry : List (List String)) (requested : List String) :
    ResOutcome :=
  if requested.isEmpty && !registry.isEmpty then .proceed [RItem.resolved 0] []
  else
    match resolveLoop registry requested.enum ⟨requested.map RItem.name, []⟩ with
    | .error e => .raised e
    | .ok (st, _) =>
      if st.targets.isEmpty then .failEarly st.warns
      else .proceed st.targets st.warns

/- ---------------- scheduler shared state (core.py 507-568) ---------------- -/

/- Pointwise function update (used for the in-degree map and the ghost
   enqueue counters). -/
def upd {α : Type} (f : Nat → α) (k : Nat) (v : α) : Nat → α :=
  fun x => if x = k then v else f x

/- The scheduler's shared mutable state: the ready queue, the scheduled
   set, the in-degree map, and enq — a ghost counter of queue.put calls
   per target (not part of the source state; it only counts events). -/
structure Core where
  queue : List Nat
  scheduled : List Nat
  indeg : Nat → Int
  enq : Nat → Nat

/- One iteration of the dependents loop inside the worker's lock
   (core.py 563-567): decrement the dependent's in-degree; if it reached
   zero and the dependent is not yet scheduled, enqueue it and mark it
   scheduled. -/
def notifyDep (c : Core) (d : Nat) : Core :=
  if c.indeg d - 1 = 0 ∧ d ∉ c.scheduled then
    { queue := c.queue ++ [d], scheduled := c.scheduled ++ [d],
      indeg := upd c.indeg d (c.indeg d - 1),
      enq := upd c.enq d (c.enq d + 1) }
  else { c with indeg := upd c.indeg d (c.indeg d - 1) }

/- The whole lock block's dependent updates for a finished target t
   (graph maps a target to its dependents). -/
def finishTarget (graph : Nat → List Nat) (t : Nat) (c : Core) : Core :=
  (graph t).foldl notifyDep c

/- One iteration of the seeding loop (core.py 513-516): every target whose
   in-degree is 0 is enqueued and marked scheduled (no membership check —
   dict keys are unique). -/
def seedStep (c : Core) (t : Nat) : Core :=
  if c.indeg t = 0 then
    { c with queue := c.queue ++ [t], scheduled := c.scheduled ++ [t],
             enq := upd c.enq t (c.enq t + 1) }
  else c

def seedCore (keys : List Nat) (indeg0 : Nat → Int) : Core :=
  keys.foldl seedStep ⟨[], [], indeg0, fun _ => 0⟩

/- build() after graph construction (core.py 505-516): on a graph error the
   RuntimeError propagates out of build() before the queue, lock or workers
   exist; otherwise the ready queue is seeded from the in-degree map. -/
def indegLookup (l : List (Nat × Nat)) (t : Nat) : Int :=
  match l.find? (fun kv => kv.1 == t) with
  | some kv => (kv.2 : Int)
  | none => 0

def buildPipeline (g : GDeps) (enum : List Nat → List Nat) (fuel : Nat)
    (roots : List Nat) : Except GBErr Core :=
  match build_dependency_graph g enum fuel roots gbInit with
  | .error e => .error e
  | .ok st => .ok (seedCore (st.indeg.map Prod.fst) (indegLookup st.indeg))

/- The interleaved multi-worker scheduler for claim C7: dequeues and
   lock-protected finish blocks are the atomic events (the finish block,
   core.py 561-567, runs entirely under `with lock`, which is what makes it
   one transition). -/
structure SchedSys where
  graph : Nat → List Nat
  keys : List Nat
  indeg0 : Nat → Int

structure SState where
  core : Core
  inflight : List Nat

def initState (sys : SchedSys) : SState :=
  ⟨seedCore sys.keys sys.indeg0, []⟩

inductive SchedStep (sys : SchedSys) : SState → SState → Prop
  | dequeue (t : Nat) (rest : List Nat) (c : Core) (infl : List Nat) :
      c.queue = t :: rest →
      SchedStep sys ⟨c, infl⟩ ⟨{ c with queue := rest }, infl ++ [t]⟩
  | finish (t : Nat) (c : Core) (infl : List Nat) :
      t ∈ infl →
      SchedStep sys ⟨c, infl⟩ ⟨finishTarget sys.graph t c, infl.erase t⟩

def SchedReach (sys : SchedSys) (s : SState) : Prop :=
  Relation.ReflTransGen (SchedStep sys) (initState sys) s

/- The enqueue-at-most-once invariant: each target's ghost put-counter is
   at most one, and equals one exactly when the target is in the scheduled
   set. -/
def EnqInv (c : Core) : Prop :=
  ∀ t, c.enq t ≤ 1 ∧ (c.enq t = 1 ↔ t ∈ c.scheduled)

/- A tiny concrete system for claim C7's witness. -/
def sysW7 : SchedSys := ⟨fun _ => [], [0], fun _ => 0⟩

/- ------------------- the worker loop (core.py 518-589) ------------------- -/

/- A recipe as the worker observes it: a child-process recipe with its exit
   code (List/Raw/Default recipes), or an in-process callable that returns
   normally or raises. -/
inductive RecipeBeh where
  | proc (exitCode : Nat)
  | callOk
  | callRaise
deriving DecidableEq

inductive RunFail where
  | cpe (code : Nat)
  | other
deriving DecidableEq

/- Recipe.run as observed by the worker (core.py 86-119, 541-557): a
   child-process recipe raises CalledProcessError exactly when check is set
   and the exit code is nonzero (subprocess.run(check=check)); a callable
   recipe that raises does so regardless of check. -/
def runBeh : RecipeBeh → Bool → Option RunFail
  | .proc n, check => if check && n != 0 then some (.cpe n) else none
  | .callOk, _ => none
  | .callRaise, _ => some .other

structure WCtx where
  graph : Nat → List Nat
  recipeOf : Nat → Option RecipeBeh
  sb : Nat → Bool
  dryRun : Bool
  keepGoing : Bool

/- The worker's state for the sequential (jobs=1) execution: built is the
   worker-local counter from line 519, shouldBe is should_be_built =
   len(in_degree.values()), and ranLog / failLog / processedLog are ghost
   logs of recipe executions, critical failure log entries and completed
   lock blocks. -/
structure WState where
  built : Nat
  shouldBe : Nat
  core : Core
  fatal : Bool
  ranLog : List Nat
  failLog : List Nat
  processedLog : List Nat

inductive PollResult where
  | exitFatal
  | exitDone
  | exitEmpty
  | got (t : Nat) (rest : List Nat)
deriving DecidableEq

/- The top of the worker loop (core.py 520-533): the cancellation check,
   the local built == should_be_built check, then the bounded-wait dequeue;
   queue.Empty after the wait makes the worker return unconditionally. -/
def workerPoll (fatal : Bool) (built shouldBe : Nat) (queue : List Nat) :
    PollResult :=
  if fatal then .exitFatal
  else if built = shouldBe then .exitDone
  else
    match queue with
    | [] => .exitEmpty
    | t :: rest => .got t rest

/- The lock block after processing target t (core.py 561-568): built += 1
   and the dependents update. -/
def stepFinish (ctx : WCtx) (t : Nat) (s : WState) : WState :=
  { s with built := s.built + 1,
           core := finishTarget ctx.graph t s.core,
           processedLog := s.processedLog ++ [t] }

/- The single-worker loop (core.py 518-575).  On a recipe failure the
   worker logs critically, sets the fatal event and breaks out of the loop,
   skipping the lock block (the target's dependents are never notified). -/
def workerLoop (ctx : WCtx) : Nat → WState → WState
  | 0, s => s
  | fuel + 1, s =>
    match workerPoll s.fatal s.built s.shouldBe s.core.queue with
    | .exitFatal => s
    | .exitDone => s
    | .exitEmpty => s
    | .got t rest =>
      let s1 : WState := { s with core := { s.core with queue := rest } }
      match ctx.recipeOf t with
      | none => workerLoop ctx fuel (stepFinish ctx t s1)
      | some beh =>
        if ctx.sb t then
          if ctx.dryRun then workerLoop ctx fuel (stepFinish ctx t s1)
          else
            let s2 : WState := { s1 with ranLog := s1.ranLog ++ [t] }
            match runBeh beh (!ctx.keepGoing) with
            | none => workerLoop ctx fuel (stepFinish ctx t s2)
            | some _ => { s2 with fatal := true, failLog := s2.failLog ++ [t] }
        else workerLoop ctx fuel (stepFinish ctx t s1)

/- build()'s return value (core.py 584-589): success iff the fatal event
   was never set. -/
def buildReturn (s : WState) : Bool := !s.fatal

/- build() under always_make (core.py 480-481): the requested-target list is
   replaced by the whole registry; nothing else in the worker consults the
   flag. -/
def alwaysMakeTargets (registry : List Nat) : List Nat := registry

/- Claim C1's scenario: target 0 (recipe exits 1) with dependent target 1
   (recipe exits 0), keep_going mode. -/
def ctxC1 : WCtx :=
  ⟨fun t => if t = 0 then [1] else [],
   fun t => if t = 0 then some (RecipeBeh.proc 1)
            else if t = 1 then some (RecipeBeh.proc 0) else none,
   fun _ => true, false, true⟩

def initC1 : WState :=
  ⟨0, 2, seedCore [0, 1] (fun t => if t = 0 then 0 else 1), false, [], [], []⟩

/- Claim C1's witness context: everything succeeds, keep_going mode, all
   recipes child processes. -/
def ctxW1 : WCtx :=
  ⟨fun _ => [], fun _ => some (RecipeBeh.proc 7), fun _ => true, false, true⟩

def initW1 : WState := ⟨0, 1, seedCore [0] (fun _ => 0), false, [], [], []⟩

/- Claim C2's failing input: one registered target whose single output
   (mtime 10) is newer than its only dependency file (mtime 5), so
   should_build() is False; always_make selects it anyway. -/
def fsC2 : FS :=
  ⟨fun p => if p = "out" then some 10 else if p = "src" then some 5 else none,
   fun _ => false⟩

def tC2 : Target := ⟨TName.pathsN ["out"], [Dep.pathD "src"]⟩

def ctxC2 : WCtx :=
  ⟨fun _ => [], fun t => if t = 0 then some (RecipeBeh.proc 0) else none,
   fun _ => should_build fsC2 tC2, false, false⟩

def initC2 : WState := ⟨0, 1, seedCore [0] (fun _ => 0), false, [], [], []⟩

/- ------------------------------ theorems ------------------------------ -/

theorem isEmpty_false_of_ne_nil {α : Type} {l : List α} (h : l ≠ []) :
    l.isEmpty = false := by
  cases l with
  | nil => exact absurd rfl h
  | cons a as => rfl

/- A phony Target dependency anywhere in the list makes the collection loop
   of should_build return early (modelled as none). -/
theorem collectDepFiles_none (deps : List Dep) (dt : DepTarget)
    (hmem : Dep.targetD dt ∈ deps) (hph : dt.phony = true) :
    collectDepFiles deps = none := by
  induction deps with
  | nil => cases hmem
  | cons d rest ih =>
    cases hmem with
    | head => simp [collectDepFiles, hph]
    | tail _ hmem2 =>
      cases d with
      | targetD d2 =>
        by_cases hp2 : d2.phony
        · simp [collectDepFiles, hp2]
        · simp [collectDepFiles, hp2, ih hmem2]
      | pathD p => simp [collectDepFiles, ih hmem2]

/-- C3 counterexample: for the target with outputs "a" (mtime 1) and "b"
    (mtime 10) and the single dependency file "c" (mtime 5) — non-phony,
    not a single existing directory, with existing outputs and an existing
    dependency file — should_build is true although the latest own output
    timestamp (10) IS strictly newer than the latest dependency timestamp
    (5): the claimed iff fails because the source compares min(timestamps),
    not the latest. -/
theorem C3_counterexample :
    tC3.phony = false ∧
    singleExistingDir fsC3 ["a", "b"] = false ∧
    get_timestamps fsC3 ["a", "b"] ≠ [] ∧
    get_timestamps fsC3 ["c"] ≠ [] ∧
    should_build fsC3 tC3 = true ∧
    specsideLatestNotNewer fsC3 ["a", "b"] ["c"] = false := by
  decide

/-- C3 (amended): for every non-phony target that is not a single existing
    directory, whose dependency collection meets no phony Target (so it
    yields the dependency files), with at least one existing output and at
    least one existing dependency file, should_build() is true iff the
    EARLIEST modification timestamp across the target's own output paths is
    not strictly newer than the latest modification timestamp across its
    dependencies' files (ties rebuild). -/
theorem C3_should_build_iff (fs : FS) (t : Target) (ps depFiles : List FPath)
    (hname : t.name = TName.pathsN ps)
    (hdir : singleExistingDir fs ps = false)
    (hcoll : collectDepFiles t.dependencies = some depFiles)
    (hown : get_timestamps fs ps ≠ [])
    (hdep : get_timestamps fs depFiles ≠ []) :
    (should_build fs t = true ↔
      listMin (get_timestamps fs ps) ≤ listMax (get_timestamps fs depFiles)) := by
  unfold should_build
  rw [hname]
  simp [hdir, hcoll, isEmpty_false_of_ne_nil hown, isEmpty_false_of_ne_nil hdep]

/-- C3 witness: the amended iff applied to the concrete C3 instance, whose
    earliest own timestamp (1) is below the dependencies' latest (5). -/
theorem C3_witness : should_build fsC3 tC3 = true :=
  (C3_should_build_iff fsC3 tC3 ["a", "b"] ["c"] rfl rfl rfl
    (by decide) (by decide)).mpr (by decide)

/-- C4 counterexample: the target tC4 has a phony Target dependency, yet
    should_build is false, because its identity is a single path naming an
    existing directory and that early exit precedes the dependency loop —
    the claim's "independent of the shape of the target's own identity"
    fails. -/
theorem C4_counterexample :
    (∃ d ∈ tC4.dependencies, ∃ dt, d = Dep.targetD dt ∧ dt.phony = true) ∧
    should_build fsC4 tC4 = false := by
  refine ⟨⟨Dep.targetD ⟨TName.phonyN "ph"⟩, by decide, ⟨TName.phonyN "ph"⟩, rfl, rfl⟩, by decide⟩

/-- C4 (amended): a phony Target dependency forces should_build() = true
    for every target, independent of timestamps, UNLESS the target's
    identity is a single path naming an existing directory (in which case
    the directory early exit returns false first). -/
theorem C4_phony_dep_forces (fs : FS) (t : Target) (dt : DepTarget)
    (hmem : Dep.targetD dt ∈ t.dependencies) (hph : dt.phony = true)
    (hdir : ∀ ps, t.name = TName.pathsN ps → singleExistingDir fs ps = false) :
    should_build fs t = true := by
  unfold should_build
  cases hn : t.name with
  | phonyN s => rfl
  | pathsN ps =>
    have hd := hdir ps hn
    have hc := collectDepFiles_none t.dependencies dt hmem hph
    by_cases hts : (get_timestamps fs ps).isEmpty <;> simp [hd, hc, hts]

/-- C4 witness: the amended theorem applied to a two-output target with a
    phony dependency on an empty filesystem. -/
theorem C4_witness : should_build fsW4 tW4 = true := by
  refine C4_phony_dep_forces fsW4 tW4 ⟨TName.phonyN "p"⟩ (by decide) rfl ?_
  intro ps hps
  have h2 : TName.pathsN ["x", "y"] = TName.pathsN ps := hps
  injection h2 with h3
  subst h3
  decide

/- Any cycle error produced by the walk carries the chain as printed by the
   enumeration oracle over the visiting stack, and the re-entered target is
   genuinely on the visiting stack. -/
theorem walkF_cyc_sound (g : GDeps) (enum : List Nat → List Nat) :
    ∀ (fuel : Nat) (task : GTask) (st : GBSt) (chain vo : List Nat) (r : Nat),
      walkF g enum fuel task st = Except.error (GBErr.cyc chain vo r) →
      chain = enum vo ∧ r ∈ vo := by
  intro fuel
  induction fuel with
  | zero =>
    intro task st chain vo r h
    simp [walkF] at h
  | succ n ih =>
    intro task st chain vo r h
    cases task with
    | visit t =>
      rw [walkF] at h
      split at h
      · rename_i hc
        obtain ⟨h1, h2, h3⟩ := by simpa using h
        subst h1; subst h2; subst h3
        exact ⟨rfl, by simpa using hc⟩
      · split at h
        · cases h
        · split at h
          · rename_i e heq
            obtain h4 := by simpa using h
            subst h4
            exact ih _ _ _ _ _ heq
          · cases h
    | deps t rest =>
      cases rest with
      | nil => rw [walkF] at h; cases h
      | cons dep rest2 =>
        cases dep with
        | inl d =>
          rw [walkF] at h
          split at h
          · rename_i e heq
            obtain h4 := by simpa using h
            subst h4
            exact ih _ _ _ _ _ heq
          · exact ih _ _ _ _ _ h
        | inr p =>
          rw [walkF] at h
          exact ih _ _ _ _ _ h

theorem bdg_cyc_sound (g : GDeps) (enum : List Nat → List Nat) (fuel : Nat) :
    ∀ (roots : List Nat) (st : GBSt) (chain vo : List Nat) (r : Nat),
      build_dependency_graph g enum fuel roots st =
          Except.error (GBErr.cyc chain vo r) →
      chain = enum vo ∧ r ∈ vo := by
  intro roots
  induction roots with
  | nil =>
    intro st chain vo r h
    simp [build_dependency_graph] at h
  | cons t ts ih =>
    intro st chain vo r h
    rw [build_dependency_graph] at h
    split at h
    · rename_i e heq
      obtain h4 := by simpa using h
      subst h4
      exact walkF_cyc_sound g enum fuel _ _ _ _ _ heq
    · exact ih _ _ _ _ h

/-- C5 counterexample: on the two-node cycle (0 depends on 1 depends on 0),
    with the valid set-enumeration oracle that yields the reverse of the
    insertion order (Python set iteration order is unspecified), the cycle
    error's printed chain is [1, 0] while the visiting order is [0, 1]: the
    code does not guarantee the chain is reported in visiting order. -/
theorem C5_counterexample :
    ValidEnum (fun l => l.reverse) ∧
    build_dependency_graph g5 (fun l => l.reverse) 10 [0] gbInit =
      Except.error (GBErr.cyc [1, 0] [0, 1] 0) ∧
    [1, 0] ≠ [0, 1] := by
  exact ⟨fun l => l.reverse_perm, rfl, by decide⟩

/-- C5 (amended): re-entering a target already in the visiting set raises a
    fatal cyclic-dependency error, and the error propagates out of the
    pipeline before any scheduler state is created; the message enumerates
    exactly the targets currently on the visiting stack (a permutation of
    the visiting-order chain) plus the re-entered target, which is itself a
    member of the visiting stack — but the enumeration is the unspecified
    iteration order of a set, not necessarily visiting order. -/
theorem C5_cycle_error (g : GDeps) (enum : List Nat → List Nat) (fuel : Nat)
    (roots chain vo : List Nat) (r : Nat)
    (henum : ValidEnum enum)
    (herr : build_dependency_graph g enum fuel roots gbInit =
      Except.error (GBErr.cyc chain vo r)) :
    chain.Perm vo ∧ r ∈ vo ∧
      buildPipeline g enum fuel roots = Except.error (GBErr.cyc chain vo r) := by
  obtain ⟨h1, h2⟩ := bdg_cyc_sound g enum fuel roots gbInit chain vo r herr
  refine ⟨?_, h2, ?_⟩
  · rw [h1]; exact henum vo
  · unfold buildPipeline
    rw [herr]

/-- C5 witness: the amended theorem applied to the two-node cycle with the
    reverse enumeration oracle. -/
theorem C5_witness :
    ([1, 0] : List Nat).Perm [0, 1] ∧ 0 ∈ ([0, 1] : List Nat) ∧
      buildPipeline g5 (fun l => l.reverse) 10 [0] =
        Except.error (GBErr.cyc [1, 0] [0, 1] 0) :=
  C5_cycle_error g5 (fun l => l.reverse) 10 [0] [1, 0] [0, 1] 0
    (fun l => l.reverse_perm) rfl

/- Scanning a prefix of names that all fail to match the registry warns and
   removes each of them in order, leaving the loop at the suffix with the
   enumeration index advanced past the removed prefix. -/
theorem resolveLoop_skip_unmatched (registry : List (List String)) :
    ∀ (pre suffix : List String) (k : Nat) (warns : List String),
      (∀ x ∈ pre, findTargetIdx registry x = none) →
      resolveLoop registry (List.enumFrom k (pre ++ suffix))
          ⟨(pre ++ suffix).map RItem.name, warns⟩ =
        resolveLoop registry (List.enumFrom (k + pre.length) suffix)
          ⟨suffix.map RItem.name, warns ++ pre⟩ := by
  intro pre
  induction pre with
  | nil =>
    intro suffix k warns h
    simp
  | cons s rest ih =>
    intro suffix k warns h
    have hs := h s (List.mem_cons_self s rest)
    have htail := ih suffix (k + 1) (warns ++ [s])
      (fun x hx => h x (List.mem_cons_of_mem s hx))
    have e1 : k + 1 + rest.length = k + (rest.length + 1) := by omega
    have e2 : warns ++ [s] ++ rest = warns ++ s :: rest := by simp
    simp only [List.length_cons] at htail
    rw [e1, e2] at htail
    simp only [List.map_append] at htail
    simp [List.enumFrom, resolveLoop, hs, removeFirst, htail]

/-- C6 counterexample: with registry [["good"]] and requested names
    ["good", "bad"], the name "bad" matches no registered target, yet it is
    neither warned about nor skipped: the loop breaks at the first matching
    name and "bad" flows on towards graph construction as a raw string. -/
theorem C6_counterexample :
    findTargetIdx [["good"]] "bad" = none ∧
    buildSelect [["good"]] ["good", "bad"] =
      ResOutcome.proceed [RItem.resolved 0, RItem.name "bad"] [] := by
  decide

/-- C6 (amended): the requested names are scanned in order and the scan
    stops at the first name that matches a registered target; names after
    it are never validated, warned about or removed.  The unmatched names
    before the first match are warned and removed, and the match is then
    assigned at its original index into the shrunken list: it is resolved
    in place only when no name was removed before it; with prior removals
    the assignment lands past the matching name, overwriting a later entry,
    or — when the original index falls outside the shrunken list — raises
    an IndexError.  Only when every requested name matches no registered
    target is each one warned and skipped, and build() then returns False
    immediately without building a graph or scheduling anything. -/
theorem C6_selection (registry : List (List String))
    (pre post requested : List String) (m : String) (i : Nat)
    (hpre : ∀ x ∈ pre, findTargetIdx registry x = none)
    (hmatch : findTargetIdx registry m = some i)
    (hnone : ∀ x ∈ requested, findTargetIdx registry x = none)
    (hne : requested ≠ []) :
    buildSelect registry (pre ++ m :: post) =
      (if pre.length < post.length + 1 then
        ResOutcome.proceed
          (((m :: post).map RItem.name).set pre.length (RItem.resolved i)) pre
      else ResOutcome.raised PyExn.indexError) ∧
    buildSelect registry requested = ResOutcome.failEarly requested := by
  constructor
  · have hreq : pre ++ m :: post ≠ ([] : List String) := by simp
    unfold buildSelect
    rw [isEmpty_false_of_ne_nil hreq]
    have hskip := resolveLoop_skip_unmatched registry pre (m :: post) 0 [] hpre
    simp only [Nat.zero_add, List.nil_append] at hskip
    simp only [Bool.false_and, Bool.false_eq_true, if_false, List.enum]
    rw [hskip]
    simp only [List.enumFrom, resolveLoop, hmatch, List.map_cons,
      List.length_cons, List.length_map]
    by_cases hlen : pre.length < post.length + 1
    · simp only [if_pos hlen]
      have hne2 :
          (RItem.name m :: List.map RItem.name post).set pre.length
            (RItem.resolved i) ≠ [] := by
        intro hnil
        have hl := congrArg List.length hnil
        simp at hl
      rw [isEmpty_false_of_ne_nil hne2]
      simp
    · simp only [if_neg hlen]
  · unfold buildSelect
    rw [isEmpty_false_of_ne_nil hne]
    have hskip := resolveLoop_skip_unmatched registry requested [] 0 [] hnone
    simp only [List.append_nil, Nat.zero_add, List.nil_append] at hskip
    simp only [Bool.false_and, Bool.false_eq_true, if_false, List.enum]
    rw [hskip]
    simp [resolveLoop, List.enumFrom]

/-- C6 witness: the amended theorem applied to the registry [["hit"]]: for
    the requested list ["bad", "hit"] the removal of "bad" shrinks the list
    and the saved index 1 is then out of range, so the assignment raises an
    IndexError; for ["zz"] nothing matches and the build fails early. -/
theorem C6_witness :
    buildSelect [["hit"]] ["bad", "hit"] = ResOutcome.raised PyExn.indexError ∧
    buildSelect [["hit"]] ["zz"] = ResOutcome.failEarly ["zz"] := by
  have h := C6_selection [["hit"]] ["bad"] [] ["zz"] "hit" 0 (by decide)
    (by decide) (by decide) (by decide)
  simpa using h

/-- C9 counterexample: an in-process recipe configured for directory "b",
    run while the process is in "a", whose action raises immediately: run
    propagates the exception and leaves the process in "b" — the prior
    working directory is NOT restored when the action raises (core.py 93-103
    has no try/finally). -/
theorem C9_counterexample :
    runCallable "b" (fun c => (true, c)) "a" = (true, "b") ∧ ("b" : FPath) ≠ "a" := by
  decide

/-- C9 (amended): for an in-process recipe whose configured directory
    differs from the current one, run() changes into the configured
    directory and invokes the action there; if the action returns normally
    the prior working directory is restored, but if the action raises, the
    exception propagates and the working directory is left wherever the
    action left it — restoration is not unconditional. -/
theorem C9_runCallable (rcwd cwd0 : FPath) (act : FPath → Bool × FPath)
    (hne : cwd0 ≠ rcwd) :
    ((act rcwd).1 = false → runCallable rcwd act cwd0 = (false, cwd0)) ∧
    ((act rcwd).1 = true → runCallable rcwd act cwd0 = (true, (act rcwd).2)) := by
  unfold runCallable
  rw [if_pos hne]
  constructor <;> intro h <;> simp [h]

/-- C9 witness: the amended theorem applied to a normally-returning action:
    the prior directory "a" is restored. -/
theorem C9_witness : runCallable "b" (fun c => (false, c)) "a" = (false, "a") :=
  (C9_runCallable "b" "a" (fun c => (false, c)) (by decide)).1 rfl

/- Enqueue-plus-mark preserves the at-most-once invariant whenever the
   enqueued target was not yet in the scheduled set (EnqInv only reads the
   scheduled set and the ghost counters, so queue and indeg generalize). -/
theorem enqInv_enqueueOne (c : Core) (d : Nat) (q2 : List Nat) (ind2 : Nat → Int)
    (h : EnqInv c) (hd : d ∉ c.scheduled) :
    EnqInv ⟨q2, c.scheduled ++ [d], ind2, upd c.enq d (c.enq d + 1)⟩ := by
  intro t
  have h1 := (h t).1
  have h2 := (h t).2
  by_cases ht : t = d
  · subst ht
    have h0 : c.enq t = 0 := by
      have hne1 : c.enq t ≠ 1 := fun hh => hd (h2.mp hh)
      omega
    refine ⟨?_, ?_⟩
    · show upd c.enq t (c.enq t + 1) t ≤ 1
      simp [upd, h0]
    · show upd c.enq t (c.enq t + 1) t = 1 ↔ t ∈ c.scheduled ++ [t]
      simp [upd, h0]
  · refine ⟨?_, ?_⟩
    · show upd c.enq d (c.enq d + 1) t ≤ 1
      simpa [upd, ht] using h1
    · show upd c.enq d (c.enq d + 1) t = 1 ↔ t ∈ c.scheduled ++ [d]
      rw [show upd c.enq d (c.enq d + 1) t = c.enq t by simp [upd, ht], h2]
      simp [List.mem_append, ht]

theorem enqInv_notifyDep (c : Core) (d : Nat) (h : EnqInv c) :
    EnqInv (notifyDep c d) := by
  unfold notifyDep
  split
  · rename_i hcond
    exact enqInv_enqueueOne c d _ _ h hcond.2
  · exact fun t => h t

theorem enqInv_finishTarget (graph : Nat → List Nat) (t : Nat) :
    ∀ (c : Core), EnqInv c → EnqInv (finishTarget graph t c) := by
  unfold finishTarget
  generalize graph t = l
  induction l with
  | nil => exact fun c hc => hc
  | cons d ds ih => exact fun c hc => ih _ (enqInv_notifyDep c d hc)

/- The seeding loop (no scheduled-membership check in the source) preserves
   the invariant as long as the still-unseeded keys are fresh: dict keys
   are unique, which the Nodup hypothesis models. -/
theorem enqInv_seed (keys : List Nat) (ind0 : Nat → Int) (hnd : keys.Nodup) :
    EnqInv (seedCore keys ind0) := by
  unfold seedCore
  suffices H : ∀ (ks : List Nat) (c : Core), ks.Nodup →
      (∀ k ∈ ks, c.enq k = 0 ∧ k ∉ c.scheduled) → EnqInv c →
      EnqInv (ks.foldl seedStep c) by
    refine H keys _ hnd (fun k _ => ⟨rfl, by simp⟩) (fun t => by simp)
  intro ks
  induction ks with
  | nil => exact fun c _ _ hc => hc
  | cons k ks2 ih =>
    intro c hnd2 hrem hc
    simp only [List.foldl_cons]
    have hk := hrem k (List.mem_cons_self k ks2)
    refine ih _ (List.nodup_cons.mp hnd2).2 ?_ ?_
    · intro k2 hk2
      have hne : k2 ≠ k := by
        intro he
        subst he
        exact (List.nodup_cons.mp hnd2).1 hk2
      have hr2 := hrem k2 (List.mem_cons_of_mem k hk2)
      unfold seedStep
      split
      · refine ⟨?_, ?_⟩
        · show upd c.enq k (c.enq k + 1) k2 = 0
          simp only [upd, if_neg hne]
          exact hr2.1
        · intro hmem
          rcases List.mem_append.mp hmem with hx | hx
          · exact hr2.2 hx
          · exact hne (List.mem_singleton.mp hx)
      · exact hr2
    · unfold seedStep
      split
      · exact enqInv_enqueueOne c k _ _ hc hk.2
      · exact hc

theorem enqInv_step (sys : SchedSys) (a b : SState) (hstep : SchedStep sys a b)
    (h : EnqInv a.core) : EnqInv b.core := by
  cases hstep with
  | dequeue t rest c infl hq => exact fun t2 => h t2
  | finish t c infl hmem => exact enqInv_finishTarget sys.graph t c h

/-- C7: in every reachable state of the scheduler (dequeues and whole
    lock-protected finish blocks as the atomic events, the finish block
    being atomic precisely because core.py 561-567 performs the in-degree
    decrements, the scheduled-set check and the insertion under one lock),
    every target has been enqueued at most once: two workers finishing
    sibling dependencies cannot both enqueue the same dependent. -/
theorem C7_enqueue_at_most_once (sys : SchedSys) (s : SState)
    (hnd : sys.keys.Nodup) (hreach : SchedReach sys s) (t : Nat) :
    s.core.enq t ≤ 1 := by
  have hinv : EnqInv s.core := by
    unfold SchedReach at hreach
    induction hreach with
    | refl => exact enqInv_seed sys.keys sys.indeg0 hnd
    | tail hsteps hstep ih => exact enqInv_step sys _ _ hstep ih
  exact (hinv t).1

/-- C7 witness: the initial state of a concrete one-target system. -/
theorem C7_witness : (initState sysW7).core.enq 0 ≤ 1 :=
  C7_enqueue_at_most_once sysW7 (initState sysW7) (by decide)
    Relation.ReflTransGen.refl 0

/-- C8 counterexample: a worker polling with the fatal flag unset, 0 of 2
    targets processed and an empty queue exits (queue.Empty makes it
    return), although 2 unprocessed targets remain — the claim that it does
    not exit in this situation fails. -/
theorem C8_counterexample :
    workerPoll false 0 2 [] = PollResult.exitEmpty ∧ ¬ (0 = 2) := by
  decide

/-- C8 (amended): a worker exits on an empty-after-wait dequeue
    unconditionally: the empty-queue exit happens exactly when the fatal
    flag is unset, the worker's local processed count differs from the
    total, and the queue is empty — no remaining-unprocessed-count check
    guards this exit (the count check at core.py 527 runs before the
    dequeue and compares the worker-local counter). -/
theorem C8_empty_exit_iff (fatal : Bool) (built shouldBe : Nat)
    (queue : List Nat) :
    workerPoll fatal built shouldBe queue = PollResult.exitEmpty ↔
      fatal = false ∧ built ≠ shouldBe ∧ queue = [] := by
  unfold workerPoll
  cases fatal
  · by_cases hb : built = shouldBe
    · simp [hb]
    · cases queue <;> simp [hb]
  · simp

/-- C1 counterexample: keep_going mode, target 0 whose recipe exits 1 with
    dependent target 1: the failing recipe runs (it is in the run log), no
    critical failure is logged, target 0 is processed and its dependent 1
    proceeds, and build() returns True — the claim that build() still
    returns False is false. -/
theorem C1_counterexample :
    ctxC1.keepGoing = true ∧
    ctxC1.recipeOf 0 = some (RecipeBeh.proc 1) ∧
    (workerLoop ctxC1 5 initC1).ranLog = [0, 1] ∧
    (workerLoop ctxC1 5 initC1).failLog = [] ∧
    (workerLoop ctxC1 5 initC1).processedLog = [0, 1] ∧
    buildReturn (workerLoop ctxC1 5 initC1) = true :=
  ⟨rfl, rfl, rfl, rfl, rfl, rfl⟩

/-- C1 (amended): in keep_going mode a child-process recipe's nonzero exit
    is never detected: check=False suppresses CalledProcessError, so no
    failure is logged, the fatal flag is never set, every dequeued target is
    treated as processed so its dependents proceed, and build() returns
    True — the failure is not reflected in the final result. -/
theorem C1_keep_going (ctx : WCtx) (fuel : Nat) (s : WState)
    (hkg : ctx.keepGoing = true)
    (hproc : ∀ t beh, ctx.recipeOf t = some beh → ∃ n, beh = RecipeBeh.proc n)
    (hf : s.fatal = false) :
    (workerLoop ctx fuel s).fatal = false ∧
    (workerLoop ctx fuel s).failLog = s.failLog ∧
    buildReturn (workerLoop ctx fuel s) = true := by
  induction fuel generalizing s with
  | zero => exact ⟨hf, rfl, by simp [workerLoop, buildReturn, hf]⟩
  | succ n ih =>
    rw [workerLoop]
    cases hp : workerPoll s.fatal s.built s.shouldBe s.core.queue with
    | exitFatal => exact ⟨hf, rfl, by simp [buildReturn, hf]⟩
    | exitDone => exact ⟨hf, rfl, by simp [buildReturn, hf]⟩
    | exitEmpty => exact ⟨hf, rfl, by simp [buildReturn, hf]⟩
    | got t rest =>
      dsimp only
      split
      · exact ih _ hf
      · rename_i beh hr
        split
        · split
          · exact ih _ hf
          · obtain ⟨m, hm⟩ := hproc t beh hr
            subst hm
            rw [hkg]
            simp only [runBeh, Bool.not_true, Bool.false_and, Bool.false_eq_true,
              if_false]
            exact ih _ hf
        · exact ih _ hf

/-- C1 witness: the amended theorem applied to a one-target keep_going
    context whose only recipe is a child process. -/
theorem C1_witness :
    (workerLoop ctxW1 3 initW1).fatal = false ∧
    (workerLoop ctxW1 3 initW1).failLog = initW1.failLog ∧
    buildReturn (workerLoop ctxW1 3 initW1) = true :=
  C1_keep_going ctxW1 3 initW1 rfl
    (fun _ _ h => ⟨7, (Option.some.inj h).symm⟩) rfl

/-- C2: evaluation at the failing input: with always_make the whole registry
    is selected (core.py 480-481), but the worker still consults
    should_build() (core.py 536) — for a registered target with a recipe
    whose single output (mtime 10) is newer than its only dependency file
    (mtime 5), should_build() is false and the recipe is skipped (empty run
    log) although the target was selected and processed, contradicting the
    claim (and the always-make option's own help text "Unconditionally make
    all targets") that every registered target's recipe runs regardless of
    should_build(). -/
theorem C2_always_make_eval :
    alwaysMakeTargets [0] = [0] ∧
    ctxC2.recipeOf 0 = some (RecipeBeh.proc 0) ∧
    ctxC2.sb 0 = should_build fsC2 tC2 ∧
    should_build fsC2 tC2 = false ∧
    (workerLoop ctxC2 4 initC2).ranLog = [] ∧
    (workerLoop ctxC2 4 initC2).built = 1 ∧
    buildReturn (workerLoop ctxC2 4 initC2) = true :=
  ⟨rfl, rfl, rfl, rfl, rfl, rfl, rfl⟩

/-- C10: for every Recipe constructed with an explicit working directory c,
    clone() succeeds and returns a Recipe whose working directory is the
    current directory at clone time (Recipe.clone passes no cwd, so
    __init__ defaults it to Path.cwd()), not the original's configured c;
    the argument payload and the raw flag are copied. -/
theorem C10_clone_cwd (input : RecipeInput) (raw : Bool) (c cur0 cur1 : FPath)
    (r : Recipe) (hinit : Recipe.init input raw (some c) cur0 = Except.ok r)
    (hne : c ≠ cur1) :
    r.cwd = c ∧
    ∃ rr, Recipe.clone r cur1 = Except.ok rr ∧ rr.cwd = cur1 ∧
      rr.cwd ≠ r.cwd ∧ rr.input = r.input ∧ rr.raw = r.raw := by
  cases input <;> cases raw <;>
    simp only [Recipe.init, if_true, if_false, reduceIte] at hinit <;>
    cases hinit <;>
    exact ⟨rfl, _, rfl, rfl, Ne.symm hne, rfl, rfl⟩

/-- C10 witness: a list recipe constructed with explicit cwd "w" in current
    directory "x", cloned while the process is in "y". -/
theorem C10_witness :
    (⟨false, RecipeType.ListRecipe, StoredInput.listS ["gcc"], "w"⟩ : Recipe).cwd = "w" ∧
    ∃ rr, Recipe.clone ⟨false, RecipeType.ListRecipe, StoredInput.listS ["gcc"], "w"⟩ "y" =
        Except.ok rr ∧
      rr.cwd = "y" ∧
      rr.cwd ≠ ("w" : FPath) ∧
      rr.input = StoredInput.listS ["gcc"] ∧ rr.raw = false :=
  C10_clone_cwd (RecipeInput.listI ["gcc"]) false "w" "x" "y"
    ⟨false, RecipeType.ListRecipe, StoredInput.listS ["gcc"], "w"⟩ rfl (by decide)

end Bob
